import Mathlib

/-!
Verification development for the recurring-transaction scheduler/materializer
of a personal finance tracker.

The embedded code lives in `src/services/transactionService.ts` (two sibling
revisions of the same service concatenated in the repository) together with the
SQL schema of the `transactions` and `recurring_transactions` tables.

Modelling conventions:
* Calendar dates are `year/month/day` triples of naturals; `parseISO`/`format`
  are the string boundary of the source and are modelled as the identity on the
  `Date` type (the database `DATE` columns store exactly such calendar dates).
* The date arithmetic (`addDays`, `addWeeks`, `addMonths`, `addYears`,
  `isBefore`) mirrors the `date-fns` functions imported by the source:
  `addMonths`/`addYears` clamp the day-of-month to the last valid day of the
  target month, `isBefore` is chronological (here: lexicographic) comparison.
* The Supabase store is a record of the two relevant tables: `transactions` as
  a list of rows (the schema defines no uniqueness constraint on
  `(recurring_transaction_id, date)`, so an insert unconditionally appends) and
  `recurring_transactions` as a list of template rows.
* The source's existence probe is `select(...).single()` with only `data`
  destructured; supabase `.single()` returns a row exactly when one row
  matches and `data: null` (error PGRST116) when zero or several match, so the
  guard (`singleOcc`) treats a date as present iff exactly one row exists for
  it.  `existsOcc` is the plain at-least-one-row predicate used to state what
  ends up persisted.
* The source's unbounded `while (true)` loops are modelled with an explicit
  fuel argument; a result of `none` means the loop has not terminated within
  the given fuel (and, when provable for every fuel, that it never terminates).
* Database calls that can fail are modelled twice: a pure model in which every
  insert succeeds, and an instrumented model (`...F` suffix) in which an
  injected predicate decides which occurrence inserts throw, mirroring the
  source's `if (createError) throw createError` propagation.
-/

namespace FinApp

/-- Calendar date with no time component, as produced by `parseISO` on the
`yyyy-MM-dd` strings the service reads from and writes to the store. -/
structure Date where
  year : Nat
  month : Nat
  day : Nat
deriving DecidableEq

/-- Leap-year test of the Gregorian calendar, as used by `date-fns`. -/
def isLeapYear (y : Nat) : Bool :=
  (y % 4 == 0 && y % 100 != 0) || y % 400 == 0

/-- Number of days of month `m` of year `y` (Gregorian calendar). -/
def daysInMonth (y m : Nat) : Nat :=
  if m = 2 then (if isLeapYear y then 29 else 28)
  else if m = 4 ∨ m = 6 ∨ m = 9 ∨ m = 11 then 30
  else 31

/-- Successor day of a calendar date. -/
def addOneDay (d : Date) : Date :=
  if d.day < daysInMonth d.year d.month then ⟨d.year, d.month, d.day + 1⟩
  else if d.month < 12 then ⟨d.year, d.month + 1, 1⟩
  else ⟨d.year + 1, 1, 1⟩

/-- Model of `date-fns` `addDays` for a non-negative amount. -/
def addDays (d : Date) : Nat → Date
  | 0 => d
  | n + 1 => addDays (addOneDay d) n

/-- Model of `date-fns` `addWeeks`. -/
def addWeeks (d : Date) (n : Nat) : Date :=
  addDays d (7 * n)

/-- Model of `date-fns` `addMonths`: the target month is reached directly and
the day-of-month is clamped to the last valid day of that single target month
(`addMonths (Jan 31) 2 = Mar 31`, but `addMonths (Jan 31) 1 = Feb 28/29`). -/
def addMonths (d : Date) (n : Nat) : Date :=
  let tm := d.month - 1 + n
  let y := d.year + tm / 12
  let m := tm % 12 + 1
  ⟨y, m, min d.day (daysInMonth y m)⟩

/-- Model of `date-fns` `addYears`: same month, day clamped to the target
month's length (`addYears (Feb 29) 1 = Feb 28`). -/
def addYears (d : Date) (n : Nat) : Date :=
  ⟨d.year + n, d.month, min d.day (daysInMonth (d.year + n) d.month)⟩

/-- Model of `date-fns` `isBefore`: strict chronological comparison, which on
calendar dates is the lexicographic order on `(year, month, day)`. -/
def isBefore (a b : Date) : Bool :=
  if a.year < b.year then true
  else if b.year < a.year then false
  else if a.month < b.month then true
  else if b.month < a.month then false
  else decide (a.day < b.day)

/-- Row of the `transactions` table, restricted to the columns the service
writes (the generated `id` and timestamps are omitted; the schema derives
them and no code under scrutiny reads them). -/
structure Row where
  description : String
  amount : Int
  rtype : String
  category_id : String
  date : Date
  recurring_transaction_id : Option String
  user_id : String
  account_id : String
deriving DecidableEq

/-- Row of the `recurring_transactions` table / the `RecurringTransaction`
interface of the source. -/
structure Recurring where
  id : String
  description : String
  amount : Int
  rtype : String
  category_id : String
  frequency : String
  interval : Nat
  start_date : Date
  end_date : Option Date
  last_generated_date : Option Date
  user_id : String
  account_id : String
deriving DecidableEq

/-- The two tables of the store that the materializer reads and writes. -/
structure Store where
  transactions : List Row
  recurrings : List Recurring
deriving DecidableEq

/-- Predicate stating that at least one `transactions` row exists for the
given `(recurring_transaction_id, date)` pair. -/
def existsOcc (s : Store) (rid : String) (d : Date) : Bool :=
  s.transactions.any fun t =>
    decide (t.recurring_transaction_id = some rid ∧ t.date = d)

/-- Number of `transactions` rows for a given `(recurring_transaction_id, date)`
pair; the schema has no uniqueness constraint, so this can exceed one. -/
def countOcc (s : Store) (rid : String) (d : Date) : Nat :=
  (s.transactions.filter fun t =>
    decide (t.recurring_transaction_id = some rid ∧ t.date = d)).length

/-- Model of the existence probe the source performs with
`select('id').eq('recurring_transaction_id', rid).eq('date', d).single()`,
destructuring only `data`: supabase `.single()` yields a row exactly when one
row matches and `data: null` (error PGRST116) when zero or several rows match,
so the probe reports "present" iff exactly one row exists for the pair. -/
def singleOcc (s : Store) (rid : String) (d : Date) : Bool :=
  countOcc s rid d == 1

/-- Insert into the `transactions` table.  The schema declares no uniqueness
constraint on `(recurring_transaction_id, date)`, so the insert unconditionally
appends a new row. -/
def insertTx (s : Store) (row : Row) : Store :=
  { s with transactions := s.transactions ++ [row] }

/-- The source's
`update({ last_generated_date }).eq('id', rid)` on `recurring_transactions`. -/
def updateWatermark (s : Store) (rid : String) (d : Date) : Store :=
  { s with recurrings := s.recurrings.map fun r =>
      if r.id = rid then { r with last_generated_date := some d } else r }

/-- Persisted `last_generated_date` of the template row with the given id. -/
def watermarkOf (s : Store) (rid : String) : Option Date :=
  match s.recurrings.find? (fun r => r.id == rid) with
  | some r => r.last_generated_date
  | none => none

/-- The `getNextDate` closure of the source: a switch on the frequency string
whose `default` branch falls through to `addMonths`. -/
def getNextDate (frequency : String) (interval : Nat) (currentDate : Date) : Date :=
  if frequency = "daily" then addDays currentDate interval
  else if frequency = "weekly" then addWeeks currentDate interval
  else if frequency = "monthly" then addMonths currentDate interval
  else if frequency = "yearly" then addYears currentDate interval
  else addMonths currentDate interval

/-- The loop-exit test `if (endDate && isBefore(endDate, currentDate)) break`:
without an `end_date` the loop never breaks. -/
def endBreak : Option Date → Date → Bool
  | none, _ => false
  | some e, d => isBefore e d

/-- The `transactions` row the service inserts for one occurrence of a
template: the template's payload plus the occurrence date. -/
def occRow (r : Recurring) (d : Date) : Row :=
  ⟨r.description, r.amount, r.rtype, r.category_id, d, some r.id,
    r.user_id, r.account_id⟩

/-- The `while (true)` generation loop of `generateTransactionsForRecurring`:
advance `currentDate`, break when it passes `end_date` (the only exit), check
whether a row for that date exists, insert it if not, and record the date in
`lastGeneratedDate`.  `none` means the fuel ran out before the loop exited. -/
def genLoop (r : Recurring) : Nat → Date → Date → Store → Option (Store × Date)
  | 0, _, _, _ => none
  | fuel + 1, currentDate, lastGeneratedDate, s =>
    let next := getNextDate r.frequency r.interval currentDate
    if endBreak r.end_date next then some (s, lastGeneratedDate)
    else
      let s' := if singleOcc s r.id next then s else insertTx s (occRow r next)
      genLoop r fuel next next s'

/-- Model of `generateTransactionsForRecurring`: ensure the occurrence at
`start_date` exists (check-then-insert), run the generation loop, then write
`last_generated_date`.  The result also carries the watermark written, which
the source logs as `lastGeneratedDate`. -/
def generateTransactionsForRecurring (fuel : Nat) (r : Recurring) (s : Store) :
    Option (Store × Date) :=
  let startDate := r.start_date
  let s1 := if singleOcc s r.id startDate then s
            else insertTx s (occRow r startDate)
  match genLoop r fuel startDate startDate s1 with
  | none => none
  | some (s2, lastGeneratedDate) =>
      some (updateWatermark s2 r.id lastGeneratedDate, lastGeneratedDate)

/-- Sequential `for` loop over the fetched templates in
`generateRecurringTransactions`; a template whose generation does not finish
propagates. -/
def genAllLoop (fuel : Nat) : List Recurring → Store → Option Store
  | [], s => some s
  | r :: rest, s =>
    match generateTransactionsForRecurring fuel r s with
    | none => none
    | some (s', _) => genAllLoop fuel rest s'

/-- Model of `generateRecurringTransactions`: fetch the templates with
`end_date` null (`.is('end_date', null)`) and generate for each in turn. -/
def generateRecurringTransactions (fuel : Nat) (s : Store) : Option Store :=
  genAllLoop fuel (s.recurrings.filter fun r => r.end_date.isNone) s

/-- Candidate dates the generation loop visits from a given current date:
the same advance/break skeleton as `genLoop`, without the store. -/
def loopDates (r : Recurring) : Nat → Date → List Date
  | 0, _ => []
  | fuel + 1, currentDate =>
    let next := getNextDate r.frequency r.interval currentDate
    if endBreak r.end_date next then []
    else next :: loopDates r fuel next

/-- Caller-side inputs of `createRecurringTransaction` that both sibling
revisions consume identically: the `transaction` payload (description, amount,
type, date) and the `recurring` settings (frequency, interval, end_date).
The authenticated user id, the default account id, the resolved category id
and the id generated for the new `recurring_transactions` row are passed
separately, since both revisions obtain them by the same store/auth calls
before the logic under scrutiny begins. -/
structure CreateInput where
  description : String
  amount : Int
  ttype : String
  txDate : Date
  frequency : String
  interval : Nat
  end_date : Option Date
deriving DecidableEq

/-- The `recurring_transactions` row both revisions insert first. -/
def newRecurringRow (freshRid uid aid categoryId : String)
    (inp : CreateInput) : Recurring :=
  ⟨freshRid, inp.description, inp.amount, inp.ttype, categoryId,
    inp.frequency, inp.interval, inp.txDate, inp.end_date, none, uid, aid⟩

/-- The `while (true)` loop shared by both revisions of
`createRecurringTransaction`: advance the date, break when it passes
`end_date`, and insert a row for it with no existence check. -/
def createLoop (r : Recurring) : Nat → Date → Date → Store → Option (Store × Date)
  | 0, _, _, _ => none
  | fuel + 1, currentDate, lastGeneratedDate, s =>
    let next := getNextDate r.frequency r.interval currentDate
    if endBreak r.end_date next then some (s, lastGeneratedDate)
    else createLoop r fuel next next (insertTx s (occRow r next))

/-- First revision of `createRecurringTransaction` (lines 368-516 of the
service): insert the template row, unconditionally insert the first
transaction at `start_date`, run the generation loop, then write
`last_generated_date`.  The returned pair carries the final store and the
watermark written. -/
def createRecurringTransaction_v1 (fuel : Nat)
    (freshRid uid aid categoryId : String) (inp : CreateInput) (s : Store) :
    Option (Store × Date) :=
  let r := newRecurringRow freshRid uid aid categoryId inp
  let s0 : Store := { s with recurrings := s.recurrings ++ [r] }
  let startDate := inp.txDate
  let s1 := insertTx s0 (occRow r startDate)
  match createLoop r fuel startDate startDate s1 with
  | none => none
  | some (s2, lastGeneratedDate) =>
      some (updateWatermark s2 r.id lastGeneratedDate, lastGeneratedDate)

/-- Second revision of `createRecurringTransaction` (lines 974-1109 of the
service): identical to the first except that no transaction is inserted at
`start_date` before the loop. -/
def createRecurringTransaction_v2 (fuel : Nat)
    (freshRid uid aid categoryId : String) (inp : CreateInput) (s : Store) :
    Option (Store × Date) :=
  let r := newRecurringRow freshRid uid aid categoryId inp
  let s0 : Store := { s with recurrings := s.recurrings ++ [r] }
  let startDate := inp.txDate
  match createLoop r fuel startDate startDate s0 with
  | none => none
  | some (s2, lastGeneratedDate) =>
      some (updateWatermark s2 r.id lastGeneratedDate, lastGeneratedDate)

/-- Failure-instrumented generation loop: `failP rid date` decides whether the
store insert of that occurrence errors, in which case the source's
`if (createError) throw createError` aborts the run; rows inserted before the
throw stay persisted (`Except.error` carries the store at the throw point). -/
def genLoopF (failP : String → Date → Bool) (r : Recurring) :
    Nat → Date → Date → Store → Option (Except Store (Store × Date))
  | 0, _, _, _ => none
  | fuel + 1, currentDate, lastGeneratedDate, s =>
    let next := getNextDate r.frequency r.interval currentDate
    if endBreak r.end_date next then some (Except.ok (s, lastGeneratedDate))
    else if singleOcc s r.id next then genLoopF failP r fuel next next s
    else if failP r.id next then some (Except.error s)
    else genLoopF failP r fuel next next (insertTx s (occRow r next))

/-- Failure-instrumented `generateTransactionsForRecurring`: the initial
check-then-insert at `start_date` and the loop inserts can throw; the
watermark update runs only after the loop finishes without error. -/
def generateTransactionsForRecurringF (failP : String → Date → Bool)
    (fuel : Nat) (r : Recurring) (s : Store) : Option (Except Store Store) :=
  let startDate := r.start_date
  let afterStart : Store → Option (Except Store Store) := fun s1 =>
    match genLoopF failP r fuel startDate startDate s1 with
    | none => none
    | some (Except.error se) => some (Except.error se)
    | some (Except.ok (s2, lastGeneratedDate)) =>
        some (Except.ok (updateWatermark s2 r.id lastGeneratedDate))
  if singleOcc s r.id startDate then afterStart s
  else if failP r.id startDate then some (Except.error s)
  else afterStart (insertTx s (occRow r startDate))

/-- Failure-instrumented `for` loop of `generateRecurringTransactions`: the
first template whose generation throws makes the surrounding `try`/`catch`
rethrow, so the remaining templates are not processed. -/
def genAllLoopF (failP : String → Date → Bool) (fuel : Nat) :
    List Recurring → Store → Option (Except Store Store)
  | [], s => some (Except.ok s)
  | r :: rest, s =>
    match generateTransactionsForRecurringF failP fuel r s with
    | none => none
    | some (Except.error se) => some (Except.error se)
    | some (Except.ok s') => genAllLoopF failP fuel rest s'

/-- Failure-instrumented `generateRecurringTransactions`. -/
def generateRecurringTransactionsF (failP : String → Date → Bool) (fuel : Nat)
    (s : Store) : Option (Except Store Store) :=
  genAllLoopF failP fuel (s.recurrings.filter fun r => r.end_date.isNone) s

/-- Uniqueness invariant of the spec: for a given template id, at most one
`transactions` row exists per date. -/
def UniqueOcc (s : Store) : Prop :=
  ∀ rid d, countOcc s rid d ≤ 1

/-! ### Order lemmas for `isBefore` -/

theorem isBefore_iff (a b : Date) :
    isBefore a b = true ↔
      (a.year < b.year ∨ (a.year = b.year ∧
        (a.month < b.month ∨ (a.month = b.month ∧ a.day < b.day)))) := by
  unfold isBefore
  split_ifs <;> simp <;> omega

theorem isBefore_irrefl (a : Date) : isBefore a a = false := by
  cases h : isBefore a a
  · rfl
  · have := (isBefore_iff a a).mp h
    omega

theorem isBefore_trans {a b c : Date} (hab : isBefore a b = true)
    (hbc : isBefore b c = true) : isBefore a c = true := by
  rw [isBefore_iff] at hab hbc ⊢
  omega

theorem ne_and_not_before_of_chain {cur d next : Date}
    (hle : isBefore cur d = false) (hlt : isBefore cur next = true) :
    d ≠ next ∧ isBefore next d = false := by
  have hle' : ¬ isBefore cur d = true := by simp [hle]
  rw [isBefore_iff] at hle' hlt
  constructor
  · intro h
    subst h
    omega
  · cases h : isBefore next d
    · rfl
    · rw [isBefore_iff] at h
      omega

/-! ### Strict growth of the date-advancing functions -/

theorem isBefore_addOneDay (d : Date) : isBefore d (addOneDay d) = true := by
  rw [isBefore_iff]
  unfold addOneDay
  split_ifs <;> (simp; try omega)

theorem isBefore_addDays (n : Nat) (d : Date) :
    isBefore d (addDays d (n + 1)) = true := by
  induction n generalizing d with
  | zero => simpa [addDays] using isBefore_addOneDay d
  | succ k ih =>
      have h1 : addDays d (k + 2) = addDays (addOneDay d) (k + 1) := rfl
      rw [h1]
      exact isBefore_trans (isBefore_addOneDay d) (ih (addOneDay d))

theorem isBefore_addWeeks {n : Nat} (hn : 1 ≤ n) (d : Date) :
    isBefore d (addWeeks d n) = true := by
  obtain ⟨k, hk⟩ : ∃ k, 7 * n = k + 1 := ⟨7 * n - 1, by omega⟩
  rw [addWeeks, hk]
  exact isBefore_addDays k d

theorem isBefore_addMonths {n : Nat} (hn : 1 ≤ n) (d : Date) :
    isBefore d (addMonths d n) = true := by
  rw [isBefore_iff]
  unfold addMonths
  simp only
  omega

theorem isBefore_addYears {n : Nat} (hn : 1 ≤ n) (d : Date) :
    isBefore d (addYears d n) = true := by
  rw [isBefore_iff]
  unfold addYears
  simp only
  omega

theorem isBefore_getNextDate {interval : Nat} (hn : 1 ≤ interval)
    (f : String) (d : Date) : isBefore d (getNextDate f interval d) = true := by
  unfold getNextDate
  split_ifs
  · obtain ⟨k, hk⟩ : ∃ k, interval = k + 1 := ⟨interval - 1, by omega⟩
    rw [hk]
    exact isBefore_addDays k d
  · exact isBefore_addWeeks hn d
  · exact isBefore_addMonths hn d
  · exact isBefore_addYears hn d
  · exact isBefore_addMonths hn d

/-! ### Store bookkeeping lemmas -/

theorem countOcc_insertTx (s : Store) (row : Row) (rid : String) (d : Date) :
    countOcc (insertTx s row) rid d =
      countOcc s rid d +
        (if row.recurring_transaction_id = some rid ∧ row.date = d
         then 1 else 0) := by
  simp only [countOcc, insertTx, List.filter_append, List.length_append]
  split_ifs with h
  · simp [List.filter, h]
  · simp [List.filter, h]

theorem existsOcc_insertTx (s : Store) (row : Row) (rid : String) (d : Date) :
    existsOcc (insertTx s row) rid d =
      (existsOcc s rid d ||
        decide (row.recurring_transaction_id = some rid ∧ row.date = d)) := by
  simp [existsOcc, insertTx, List.any_append]

theorem countOcc_eq_zero_of_existsOcc_false {s : Store} {rid : String}
    {d : Date} (h : existsOcc s rid d = false) : countOcc s rid d = 0 := by
  simp only [existsOcc, List.any_eq_false] at h
  simp only [countOcc, List.length_eq_zero, List.filter_eq_nil_iff]
  intro t ht
  exact h t ht

theorem countOcc_pos_of_mem {s : Store} {row : Row} {rid : String} {d : Date}
    (hm : row ∈ s.transactions) (hr : row.recurring_transaction_id = some rid)
    (hd : row.date = d) : 0 < countOcc s rid d := by
  have : row ∈ s.transactions.filter fun t =>
      decide (t.recurring_transaction_id = some rid ∧ t.date = d) := by
    rw [List.mem_filter]
    exact ⟨hm, by simp [hr, hd]⟩
  have := List.length_pos.mpr (List.ne_nil_of_mem this)
  simpa [countOcc] using this

theorem occRow_rid (r : Recurring) (d : Date) :
    (occRow r d).recurring_transaction_id = some r.id := rfl

theorem occRow_date (r : Recurring) (d : Date) : (occRow r d).date = d := rfl

theorem singleOcc_iff (s : Store) (rid : String) (d : Date) :
    singleOcc s rid d = true ↔ countOcc s rid d = 1 := by
  simp [singleOcc]

theorem singleOcc_false_ne {s : Store} {rid : String} {d : Date}
    (h : singleOcc s rid d = false) : countOcc s rid d ≠ 1 := by
  simp [singleOcc] at h
  exact h

theorem countOcc_congr {s t : Store} (h : t.transactions = s.transactions)
    (rid : String) (d : Date) : countOcc t rid d = countOcc s rid d := by
  simp [countOcc, h]

theorem countOcc_mono_append {s t : Store} {L : List Row}
    (h : t.transactions = s.transactions ++ L) (rid : String) (d : Date) :
    countOcc s rid d ≤ countOcc t rid d := by
  simp [countOcc, h, List.filter_append]

theorem existsOcc_of_countOcc_pos {s : Store} {rid : String} {d : Date}
    (h : 0 < countOcc s rid d) : existsOcc s rid d = true := by
  rw [existsOcc, List.any_eq_true]
  have hne : (s.transactions.filter fun t =>
      decide (t.recurring_transaction_id = some rid ∧ t.date = d)) ≠ [] := by
    intro hnil
    rw [countOcc, hnil] at h
    simp at h
  obtain ⟨x, hx⟩ := List.exists_mem_of_ne_nil _ hne
  rw [List.mem_filter] at hx
  exact ⟨x, hx.1, hx.2⟩

theorem uniqueOcc_insert_occRow {s : Store} {r : Recurring} {d : Date}
    (hu : UniqueOcc s) (h0 : countOcc s r.id d = 0) :
    UniqueOcc (insertTx s (occRow r d)) := by
  intro rid d'
  rw [countOcc_insertTx]
  split_ifs with hc
  · obtain ⟨hc1, hc2⟩ := hc
    rw [occRow_rid, Option.some.injEq] at hc1
    rw [occRow_date] at hc2
    subst hc1
    subst hc2
    omega
  · have := hu rid d'
    omega

theorem transactions_updateWatermark (s : Store) (rid : String) (d : Date) :
    (updateWatermark s rid d).transactions = s.transactions := rfl

theorem existsOcc_updateWatermark (s : Store) (rid rid' : String) (w d : Date) :
    existsOcc (updateWatermark s rid w) rid' d = existsOcc s rid' d := rfl

theorem countOcc_updateWatermark (s : Store) (rid rid' : String) (w d : Date) :
    countOcc (updateWatermark s rid w) rid' d = countOcc s rid' d := rfl

theorem existsOcc_of_append {s t : Store} {L : List Row} {rid : String}
    {d : Date} (hT : t.transactions = s.transactions ++ L)
    (h : existsOcc s rid d = true) : existsOcc t rid d = true := by
  simp only [existsOcc] at h ⊢
  rw [hT, List.any_append, h, Bool.true_or]

/-! ### Structural lemmas about the generation loop -/

theorem genLoop_append {r : Recurring} :
    ∀ {fuel : Nat} {cur last : Date} {s s2 : Store} {w : Date},
      genLoop r fuel cur last s = some (s2, w) →
      s2.recurrings = s.recurrings ∧
        ∃ L, s2.transactions = s.transactions ++ L := by
  intro fuel
  induction fuel with
  | zero => intro cur last s s2 w h; simp [genLoop] at h
  | succ k ih =>
    intro cur last s s2 w h
    simp only [genLoop] at h
    by_cases hb :
        endBreak r.end_date (getNextDate r.frequency r.interval cur) = true
    · simp only [hb, if_true, Option.some.injEq, Prod.mk.injEq] at h
      refine ⟨by rw [h.1], ⟨[], by rw [h.1]; simp⟩⟩
    · simp only [hb, if_false] at h
      by_cases he :
          singleOcc s r.id (getNextDate r.frequency r.interval cur) = true
      · simp only [he, if_true] at h
        exact ih h
      · simp only [he, if_false] at h
        obtain ⟨h1, L, h2⟩ := ih h
        refine ⟨h1, ⟨occRow r (getNextDate r.frequency r.interval cur) :: L, ?_⟩⟩
        rw [h2]
        simp [insertTx]

theorem existsOcc_congr {s t : Store} (h : t.transactions = s.transactions)
    (rid : String) (d : Date) : existsOcc t rid d = existsOcc s rid d := by
  simp [existsOcc, h]

theorem genLoop_none_of_end_none {r : Recurring} (hend : r.end_date = none) :
    ∀ (fuel : Nat) (cur last : Date) (s : Store),
      genLoop r fuel cur last s = none := by
  intro fuel
  induction fuel with
  | zero => intro cur last s; simp [genLoop]
  | succ k ih =>
    intro cur last s
    simp only [genLoop, hend]
    have hb : endBreak none (getNextDate r.frequency r.interval cur) = false :=
      rfl
    simp only [hb, if_false]
    exact ih _ _ _

theorem genLoop_w_agree {r : Recurring} :
    ∀ {fuel fuel' : Nat} {cur last : Date} {s t s2 t2 : Store} {w w' : Date},
      genLoop r fuel cur last s = some (s2, w) →
      genLoop r fuel' cur last t = some (t2, w') →
      w = w' := by
  intro fuel
  induction fuel with
  | zero => intro fuel' cur last s t s2 t2 w w' h _; simp [genLoop] at h
  | succ k ih =>
    intro fuel' cur last s t s2 t2 w w' h h'
    cases fuel' with
    | zero => simp [genLoop] at h'
    | succ m =>
      simp only [genLoop] at h h'
      cases hb : endBreak r.end_date (getNextDate r.frequency r.interval cur) with
      | true =>
        rw [hb] at h h'
        simp at h h'
        rw [← h.2, ← h'.2]
      | false =>
        rw [hb] at h h'
        simp only [Bool.false_eq_true, if_false] at h h'
        exact ih h h'

theorem genLoop_covers {r : Recurring} :
    ∀ {fuel : Nat} {cur last : Date} {s s2 : Store} {w : Date},
      genLoop r fuel cur last s = some (s2, w) →
      ∀ d ∈ loopDates r fuel cur, existsOcc s2 r.id d = true := by
  intro fuel
  induction fuel with
  | zero => intro cur last s s2 w h; simp [genLoop] at h
  | succ k ih =>
    intro cur last s s2 w h d hd
    simp only [genLoop] at h
    simp only [loopDates] at hd
    cases hb : endBreak r.end_date (getNextDate r.frequency r.interval cur) with
    | true =>
      rw [hb] at hd
      simp at hd
    | false =>
      rw [hb] at h hd
      simp only [Bool.false_eq_true, if_false] at h
      simp only [Bool.false_eq_true, if_false, List.mem_cons] at hd
      rcases hd with hd | hd
      · subst hd
        cases he : singleOcc s r.id (getNextDate r.frequency r.interval cur) with
        | true =>
          rw [he] at h
          simp only [if_true] at h
          obtain ⟨_, L, hL⟩ := genLoop_append h
          have hc1 := (singleOcc_iff s r.id
            (getNextDate r.frequency r.interval cur)).mp he
          have hmono := countOcc_mono_append hL r.id
            (getNextDate r.frequency r.interval cur)
          exact existsOcc_of_countOcc_pos (by omega)
        | false =>
          rw [he] at h
          simp only [Bool.false_eq_true, if_false] at h
          have hins : existsOcc
              (insertTx s (occRow r (getNextDate r.frequency r.interval cur)))
              r.id (getNextDate r.frequency r.interval cur) = true := by
            rw [existsOcc_insertTx]
            simp [occRow]
          obtain ⟨_, L, hL⟩ := genLoop_append h
          exact existsOcc_of_append hL hins
      · cases he : singleOcc s r.id (getNextDate r.frequency r.interval cur) with
        | true =>
          rw [he] at h
          simp only [if_true] at h
          exact ih h d hd
        | false =>
          rw [he] at h
          simp only [Bool.false_eq_true, if_false] at h
          exact ih h d hd

theorem genLoop_unique {r : Recurring} :
    ∀ {fuel : Nat} {cur last : Date} {s s2 : Store} {w : Date},
      UniqueOcc s → genLoop r fuel cur last s = some (s2, w) → UniqueOcc s2 := by
  intro fuel
  induction fuel with
  | zero => intro cur last s s2 w _ h; simp [genLoop] at h
  | succ k ih =>
    intro cur last s s2 w hu h
    simp only [genLoop] at h
    cases hb : endBreak r.end_date (getNextDate r.frequency r.interval cur) with
    | true =>
      rw [hb] at h
      simp at h
      rw [← h.1]
      exact hu
    | false =>
      rw [hb] at h
      simp only [Bool.false_eq_true, if_false] at h
      cases he : singleOcc s r.id (getNextDate r.frequency r.interval cur) with
      | true =>
        rw [he] at h
        simp only [if_true] at h
        exact ih hu h
      | false =>
        rw [he] at h
        simp only [Bool.false_eq_true, if_false] at h
        have hne := singleOcc_false_ne he
        have hx := hu r.id (getNextDate r.frequency r.interval cur)
        have hu' : UniqueOcc
            (insertTx s (occRow r (getNextDate r.frequency r.interval cur))) :=
          uniqueOcc_insert_occRow hu (by omega)
        exact ih hu' h

theorem genLoop_stable {r : Recurring} :
    ∀ {fuel : Nat} {cur last : Date} {s s2 t : Store} {w : Date},
      UniqueOcc s →
      genLoop r fuel cur last s = some (s2, w) →
      t.transactions = s2.transactions →
      genLoop r fuel cur last t = some (t, w) := by
  intro fuel
  induction fuel with
  | zero => intro cur last s s2 t w _ h ht; simp [genLoop] at h
  | succ k ih =>
    intro cur last s s2 t w hu h ht
    simp only [genLoop] at h ⊢
    cases hb : endBreak r.end_date (getNextDate r.frequency r.interval cur) with
    | true =>
      rw [hb] at h
      simp at h
      simp [h.2]
    | false =>
      rw [hb] at h
      simp only [Bool.false_eq_true, if_false] at h
      simp only [Bool.false_eq_true, if_false]
      cases he : singleOcc s r.id (getNextDate r.frequency r.interval cur) with
      | true =>
        rw [he] at h
        simp only [if_true] at h
        have hc1 := (singleOcc_iff s r.id
          (getNextDate r.frequency r.interval cur)).mp he
        have hu2 : UniqueOcc s2 := genLoop_unique hu h
        obtain ⟨_, L, hL⟩ := genLoop_append h
        have hmono := countOcc_mono_append hL r.id
          (getNextDate r.frequency r.interval cur)
        have hcu := hu2 r.id (getNextDate r.frequency r.interval cur)
        have ht' : singleOcc t r.id
            (getNextDate r.frequency r.interval cur) = true := by
          rw [singleOcc_iff, countOcc_congr ht]
          omega
        rw [if_pos ht']
        exact ih hu h ht
      | false =>
        rw [he] at h
        simp only [Bool.false_eq_true, if_false] at h
        have hne := singleOcc_false_ne he
        have hx := hu r.id (getNextDate r.frequency r.interval cur)
        have hz : countOcc s r.id (getNextDate r.frequency r.interval cur) = 0 := by
          omega
        have hu' : UniqueOcc
            (insertTx s (occRow r (getNextDate r.frequency r.interval cur))) :=
          uniqueOcc_insert_occRow hu hz
        have hc1 : countOcc
            (insertTx s (occRow r (getNextDate r.frequency r.interval cur)))
            r.id (getNextDate r.frequency r.interval cur) = 1 := by
          rw [countOcc_insertTx, if_pos ⟨rfl, rfl⟩]
          omega
        have hu2 : UniqueOcc s2 := genLoop_unique hu' h
        obtain ⟨_, L, hL⟩ := genLoop_append h
        have hmono := countOcc_mono_append hL r.id
          (getNextDate r.frequency r.interval cur)
        have hcu := hu2 r.id (getNextDate r.frequency r.interval cur)
        have ht' : singleOcc t r.id
            (getNextDate r.frequency r.interval cur) = true := by
          rw [singleOcc_iff, countOcc_congr ht]
          omega
        rw [if_pos ht']
        exact ih hu' h ht

theorem updateWatermark_idem (s : Store) (rid : String) (w : Date) :
    updateWatermark (updateWatermark s rid w) rid w = updateWatermark s rid w := by
  unfold updateWatermark
  simp only [List.map_map]
  congr 1
  refine List.map_congr_left ?_
  intro a _
  by_cases h : a.id = rid
  · simp [Function.comp, h]
  · simp [Function.comp, h]

theorem startDate_covered (r : Recurring) (s : Store) :
    existsOcc
      (if singleOcc s r.id r.start_date = true then s
       else insertTx s (occRow r r.start_date)) r.id r.start_date = true := by
  by_cases hx : singleOcc s r.id r.start_date = true
  · rw [if_pos hx]
    have hc1 := (singleOcc_iff s r.id r.start_date).mp hx
    exact existsOcc_of_countOcc_pos (by omega)
  · rw [if_neg hx]
    rw [existsOcc_insertTx]
    simp [occRow]

theorem uniqueOcc_after_start {r : Recurring} {s : Store} (hu : UniqueOcc s) :
    UniqueOcc (if singleOcc s r.id r.start_date = true then s
      else insertTx s (occRow r r.start_date)) := by
  by_cases hx : singleOcc s r.id r.start_date = true
  · rw [if_pos hx]
    exact hu
  · rw [if_neg hx]
    refine uniqueOcc_insert_occRow hu ?_
    have hne := singleOcc_false_ne (by simpa using hx)
    have := hu r.id r.start_date
    omega

theorem countOcc_after_start {r : Recurring} {s : Store} (hu : UniqueOcc s) :
    countOcc (if singleOcc s r.id r.start_date = true then s
      else insertTx s (occRow r r.start_date)) r.id r.start_date = 1 := by
  by_cases hx : singleOcc s r.id r.start_date = true
  · rw [if_pos hx]
    exact (singleOcc_iff s r.id r.start_date).mp hx
  · rw [if_neg hx, countOcc_insertTx, if_pos ⟨rfl, rfl⟩]
    have hne := singleOcc_false_ne (by simpa using hx)
    have := hu r.id r.start_date
    omega

theorem generate_run_anatomy {fuel : Nat} {r : Recurring} {s s' : Store}
    {w : Date}
    (h : generateTransactionsForRecurring fuel r s = some (s', w)) :
    ∃ s2, genLoop r fuel r.start_date r.start_date
        (if singleOcc s r.id r.start_date = true then s
         else insertTx s (occRow r r.start_date)) = some (s2, w) ∧
      s' = updateWatermark s2 r.id w := by
  simp only [generateTransactionsForRecurring] at h
  rcases hg : genLoop r fuel r.start_date r.start_date
      (if singleOcc s r.id r.start_date = true then s
       else insertTx s (occRow r r.start_date)) with _ | ⟨s2, w2⟩
  · rw [hg] at h
    simp at h
  · rw [hg] at h
    simp only [Option.some.injEq, Prod.mk.injEq] at h
    obtain ⟨h1, h2⟩ := h
    subst h2
    exact ⟨s2, rfl, h1.symm⟩

/-- C1: the occurrence-generation computation of
`generateTransactionsForRecurring` does not terminate for a template without
an `end_date`, no matter how much fuel the loop is given: the `while (true)`
loop's only exit tests `endDate && isBefore(endDate, currentDate)`, and no
horizon bounds the sequence.  This contradicts the claim that generation
always terminates at `min(endDate, horizon)`. -/
theorem generate_diverges_without_end_date (fuel : Nat) (r : Recurring)
    (s : Store) (hend : r.end_date = none) :
    generateTransactionsForRecurring fuel r s = none := by
  simp only [generateTransactionsForRecurring]
  rw [genLoop_none_of_end_none hend]

/-- C2 (amended): materialization is idempotent from duplicate-free stores.
If the store satisfies the per-date uniqueness invariant and a run of
`generateTransactionsForRecurring` completes, producing store `s₁` and
watermark `w`, then running it again on `s₁` completes with the store
unchanged (zero new occurrences) and the same watermark.  The invariant
matters because the source's `.single()` probe reports a duplicated date as
absent and re-inserts it on every run (see the counterexample). -/
theorem materialize_idempotent {fuel : Nat} {r : Recurring} {s s₁ : Store}
    {w : Date} (hu : UniqueOcc s)
    (h : generateTransactionsForRecurring fuel r s = some (s₁, w)) :
    generateTransactionsForRecurring fuel r s₁ = some (s₁, w) := by
  obtain ⟨s2, hg, hupd⟩ := generate_run_anatomy h
  have hu1 : UniqueOcc (if singleOcc s r.id r.start_date = true then s
      else insertTx s (occRow r r.start_date)) := uniqueOcc_after_start hu
  have hs1 : countOcc (if singleOcc s r.id r.start_date = true then s
      else insertTx s (occRow r r.start_date)) r.id r.start_date = 1 :=
    countOcc_after_start hu
  have hu2 : UniqueOcc s2 := genLoop_unique hu1 hg
  obtain ⟨hrec, L, hL⟩ := genLoop_append hg
  have hmono := countOcc_mono_append hL r.id r.start_date
  have hcu := hu2 r.id r.start_date
  have htx : s₁.transactions = s2.transactions := by rw [hupd]; rfl
  have hx1 : singleOcc s₁ r.id r.start_date = true := by
    rw [singleOcc_iff, countOcc_congr htx]
    omega
  have hloop := genLoop_stable hu1 hg htx
  simp only [generateTransactionsForRecurring]
  rw [if_pos hx1, hloop]
  simp only [Option.some.injEq, Prod.mk.injEq]
  rw [hupd, updateWatermark_idem]
  exact ⟨rfl, trivial⟩

/-- C3 (amended): a completed run of `generateTransactionsForRecurring`
leaves every candidate date — the start date and every date the generation
loop visits — present in the store, whether or not an occurrence row for it
existed before the run and regardless of the stored watermark: deleted
occurrences at dates at or below the watermark are recreated. -/
theorem materialize_recreates_all_candidates {fuel : Nat} {r : Recurring}
    {s s' : Store} {w : Date}
    (h : generateTransactionsForRecurring fuel r s = some (s', w)) :
    ∀ d, (d = r.start_date ∨ d ∈ loopDates r fuel r.start_date) →
      existsOcc s' r.id d = true := by
  obtain ⟨s2, hg, hupd⟩ := generate_run_anatomy h
  have htx : s'.transactions = s2.transactions := by rw [hupd]; rfl
  intro d hd
  rw [existsOcc_congr htx]
  rcases hd with hd | hd
  · subst hd
    obtain ⟨_, L, hL⟩ := genLoop_append hg
    exact existsOcc_of_append hL (startDate_covered r s)
  · exact genLoop_covers hg d hd

/-- C4 (amended): the watermark written by a completed run of
`generateTransactionsForRecurring` is a function of the template alone — it
does not depend on the store contents or on the fuel.  Consequently, across
any sequence of runs of an unchanged template the persisted watermark is
constant (never decreases); only a change to the template row itself (such as
shrinking `end_date`) can lower it. -/
theorem watermark_determined_by_template {fuel fuel' : Nat} {r : Recurring}
    {s t s₁ t₁ : Store} {w₁ w₂ : Date}
    (h1 : generateTransactionsForRecurring fuel r s = some (s₁, w₁))
    (h2 : generateTransactionsForRecurring fuel' r t = some (t₁, w₂)) :
    w₁ = w₂ := by
  obtain ⟨s2, hg1, _⟩ := generate_run_anatomy h1
  obtain ⟨t2, hg2, _⟩ := generate_run_anatomy h2
  exact genLoop_w_agree hg1 hg2

/-! ### Concrete templates and stores used to instantiate the theorems -/

/-- Open-ended monthly template (no `end_date`), as fetched by
`generateRecurringTransactions` with `.is('end_date', null)`. -/
def c1Template : Recurring :=
  ⟨"rt1", "Aluguel", 1200, "expense", "cat1", "monthly", 1,
    ⟨2024, 1, 1⟩, none, none, "u1", "acc1"⟩

theorem generate_diverges_without_end_date_witness :
    c1Template.end_date = none ∧
      generateTransactionsForRecurring 9 c1Template ⟨[], [c1Template]⟩ = none :=
  ⟨rfl, generate_diverges_without_end_date 9 c1Template ⟨[], [c1Template]⟩ rfl⟩

/-- Daily template bounded by an `end_date` two steps after the start. -/
def c2Template : Recurring :=
  ⟨"rt2", "Internet", 100, "expense", "cat2", "daily", 1,
    ⟨2024, 1, 1⟩, some ⟨2024, 1, 3⟩, none, "u1", "acc1"⟩

/-- Store state after fully materializing `c2Template`. -/
def c2After : Store :=
  ⟨[occRow c2Template ⟨2024, 1, 1⟩, occRow c2Template ⟨2024, 1, 2⟩,
    occRow c2Template ⟨2024, 1, 3⟩],
   [{ c2Template with last_generated_date := some ⟨2024, 1, 3⟩ }]⟩

theorem materialize_idempotent_witness :
    generateTransactionsForRecurring 5 c2Template ⟨[], [c2Template]⟩ =
        some (c2After, ⟨2024, 1, 3⟩) ∧
      generateTransactionsForRecurring 5 c2Template c2After =
        some (c2After, ⟨2024, 1, 3⟩) :=
  ⟨by decide,
    @materialize_idempotent 5 c2Template ⟨[], [c2Template]⟩ c2After
      ⟨2024, 1, 3⟩ (fun rid d => by simp [countOcc]) (by decide)⟩

/-- Store already holding a duplicated occurrence of `c2Template` at
2024-01-02 — a state the schema admits, since it declares no uniqueness
constraint on `(recurring_transaction_id, date)`. -/
def c2DupStore : Store :=
  ⟨[occRow c2Template ⟨2024, 1, 1⟩, occRow c2Template ⟨2024, 1, 2⟩,
    occRow c2Template ⟨2024, 1, 2⟩],
   [c2Template]⟩

/-- Store after the first run on `c2DupStore`: the `.single()` probe saw the
duplicated 2024-01-02 as absent (two rows match), so a third row for that
date was appended, plus the genuinely missing 2024-01-03. -/
def c2DupAfter1 : Store :=
  ⟨[occRow c2Template ⟨2024, 1, 1⟩, occRow c2Template ⟨2024, 1, 2⟩,
    occRow c2Template ⟨2024, 1, 2⟩, occRow c2Template ⟨2024, 1, 2⟩,
    occRow c2Template ⟨2024, 1, 3⟩],
   [{ c2Template with last_generated_date := some ⟨2024, 1, 3⟩ }]⟩

/-- Store after the second run: yet another 2024-01-02 row was appended. -/
def c2DupAfter2 : Store :=
  ⟨[occRow c2Template ⟨2024, 1, 1⟩, occRow c2Template ⟨2024, 1, 2⟩,
    occRow c2Template ⟨2024, 1, 2⟩, occRow c2Template ⟨2024, 1, 2⟩,
    occRow c2Template ⟨2024, 1, 3⟩, occRow c2Template ⟨2024, 1, 2⟩],
   [{ c2Template with last_generated_date := some ⟨2024, 1, 3⟩ }]⟩

/-- C2 (counterexample): from a store holding two rows at a candidate date,
the second of two successive materialize runs creates a new occurrence (one
more row at the duplicated date), because the `.single()` existence probe
returns null data whenever two or more rows match, so the source treats the
date as absent and re-inserts it on every run — calling materialize twice is
not idempotent on every store. -/
theorem duplicate_rows_break_idempotence :
    generateTransactionsForRecurring 5 c2Template c2DupStore =
        some (c2DupAfter1, ⟨2024, 1, 3⟩) ∧
      generateTransactionsForRecurring 5 c2Template c2DupAfter1 =
        some (c2DupAfter2, ⟨2024, 1, 3⟩) ∧
      c2DupAfter2.transactions.length = c2DupAfter1.transactions.length + 1 := by
  decide

/-- Daily template for the resurrection scenario. -/
def c3Template : Recurring :=
  ⟨"rt3", "Academia", 90, "expense", "cat3", "daily", 1,
    ⟨2024, 1, 1⟩, some ⟨2024, 1, 3⟩, none, "u1", "acc1"⟩

/-- Store after full materialization of `c3Template` followed by the user
deleting the occurrence at 2024-01-02, a date at or below the persisted
watermark 2024-01-03. -/
def c3Deleted : Store :=
  ⟨[occRow c3Template ⟨2024, 1, 1⟩, occRow c3Template ⟨2024, 1, 3⟩],
   [{ c3Template with last_generated_date := some ⟨2024, 1, 3⟩ }]⟩

/-- Store produced by re-running the materializer on `c3Deleted`: the deleted
occurrence is recreated (appended last). -/
def c3After : Store :=
  ⟨[occRow c3Template ⟨2024, 1, 1⟩, occRow c3Template ⟨2024, 1, 3⟩,
    occRow c3Template ⟨2024, 1, 2⟩],
   [{ c3Template with last_generated_date := some ⟨2024, 1, 3⟩ }]⟩

/-- C3 (counterexample): with the watermark at 2024-01-03 and the occurrence
at 2024-01-02 (a date at or below the watermark) deleted, re-running
`generateTransactionsForRecurring` recreates it — the existence check is a
per-date row lookup, not watermark-aware, contradicting the claim that such a
date is treated as already handled. -/
theorem deleted_occurrence_resurrected :
    watermarkOf c3Deleted "rt3" = some ⟨2024, 1, 3⟩ ∧
      isBefore ⟨2024, 1, 3⟩ ⟨2024, 1, 2⟩ = false ∧
      existsOcc c3Deleted "rt3" ⟨2024, 1, 2⟩ = false ∧
      generateTransactionsForRecurring 5 c3Template c3Deleted =
        some (c3After, ⟨2024, 1, 3⟩) ∧
      existsOcc c3After "rt3" ⟨2024, 1, 2⟩ = true := by decide

theorem materialize_recreates_all_candidates_witness :
    generateTransactionsForRecurring 5 c3Template c3Deleted =
        some (c3After, ⟨2024, 1, 3⟩) ∧
      existsOcc c3After "rt3" ⟨2024, 1, 2⟩ = true :=
  ⟨by decide,
    @materialize_recreates_all_candidates 5 c3Template c3Deleted c3After
      ⟨2024, 1, 3⟩ (by decide) ⟨2024, 1, 2⟩ (Or.inr (by decide))⟩

/-- Daily template whose `end_date` the user later shrinks. -/
def c4Template : Recurring :=
  ⟨"rt4", "Energia", 200, "expense", "cat4", "daily", 1,
    ⟨2024, 1, 1⟩, some ⟨2024, 1, 4⟩, none, "u1", "acc1"⟩

/-- The same template after `updateRecurringTransaction` moved its `end_date`
back to 2024-01-02. -/
def c4Shrunk : Recurring := { c4Template with end_date := some ⟨2024, 1, 2⟩ }

/-- Occurrence rows of the first, full materialization of `c4Template`. -/
def c4Rows : List Row :=
  [occRow c4Template ⟨2024, 1, 1⟩, occRow c4Template ⟨2024, 1, 2⟩,
   occRow c4Template ⟨2024, 1, 3⟩, occRow c4Template ⟨2024, 1, 4⟩]

/-- Store after the first materialization run. -/
def c4AfterFirst : Store :=
  ⟨c4Rows, [{ c4Template with last_generated_date := some ⟨2024, 1, 4⟩ }]⟩

/-- Store after the first run and the `end_date` edit. -/
def c4Edited : Store :=
  ⟨c4Rows, [{ c4Shrunk with last_generated_date := some ⟨2024, 1, 4⟩ }]⟩

/-- Store after re-running the materializer on the edited template: the
watermark has moved backwards to 2024-01-02. -/
def c4AfterSecond : Store :=
  ⟨c4Rows, [{ c4Shrunk with last_generated_date := some ⟨2024, 1, 2⟩ }]⟩

/-- C4 (counterexample): a materialize run after an intervening `end_date`
edit lowers the persisted `last_generated_date` from 2024-01-04 to
2024-01-02 — the run recomputes the watermark from `start_date` and writes it
unconditionally, so the watermark is not monotone across calls. -/
theorem watermark_decreases_after_end_date_shrink :
    generateTransactionsForRecurring 7 c4Template ⟨[], [c4Template]⟩ =
        some (c4AfterFirst, ⟨2024, 1, 4⟩) ∧
      watermarkOf c4AfterFirst "rt4" = some ⟨2024, 1, 4⟩ ∧
      generateTransactionsForRecurring 7 c4Shrunk c4Edited =
        some (c4AfterSecond, ⟨2024, 1, 2⟩) ∧
      watermarkOf c4AfterSecond "rt4" = some ⟨2024, 1, 2⟩ ∧
      isBefore ⟨2024, 1, 2⟩ ⟨2024, 1, 4⟩ = true := by decide

theorem watermark_determined_by_template_witness :
    generateTransactionsForRecurring 7 c4Template ⟨[], [c4Template]⟩ =
        some (c4AfterFirst, ⟨2024, 1, 4⟩) ∧
      generateTransactionsForRecurring 9 c4Template c4AfterFirst =
        some (c4AfterFirst, ⟨2024, 1, 4⟩) ∧
      (⟨2024, 1, 4⟩ : Date) = ⟨2024, 1, 4⟩ :=
  ⟨by decide, by decide,
    @watermark_determined_by_template 7 9 c4Template ⟨[], [c4Template]⟩
      c4AfterFirst c4AfterFirst c4AfterFirst ⟨2024, 1, 4⟩ ⟨2024, 1, 4⟩
      (by decide) (by decide)⟩

/-- Monthly template starting on Jan 31 of a non-leap year. -/
def c5NonLeap : Recurring :=
  ⟨"rt5", "Assinatura", 50, "expense", "cat5", "monthly", 1,
    ⟨2023, 1, 31⟩, some ⟨2023, 4, 30⟩, none, "u1", "acc1"⟩

/-- Monthly template starting on Jan 31 of a leap year. -/
def c5Leap : Recurring :=
  ⟨"rt5b", "Assinatura", 50, "expense", "cat5", "monthly", 1,
    ⟨2024, 1, 31⟩, some ⟨2024, 4, 30⟩, none, "u1", "acc1"⟩

/-- C5 (counterexample): for the monthly template starting 2023-01-31 with
interval 1, the third generated occurrence is 2023-03-28, not the claimed
2023-03-31 — `addMonths` advances from the previous, already-clamped element,
so the day never returns to the 31st. -/
theorem monthly_jan31_third_occurrence_not_mar31 :
    ((generateTransactionsForRecurring 6 c5NonLeap ⟨[], []⟩).map
        fun p => p.1.transactions.map Row.date) =
      some [⟨2023, 1, 31⟩, ⟨2023, 2, 28⟩, ⟨2023, 3, 28⟩, ⟨2023, 4, 28⟩] ∧
      (⟨2023, 3, 28⟩ : Date) ≠ ⟨2023, 3, 31⟩ := by decide

/-- C5 (amended): a monthly template starting Jan 31 with interval 1 yields
Feb 28 (non-leap) or Feb 29 (leap) as its second occurrence, as claimed; but
each later element advances the previous element, keeping the clamped
day-of-month: Mar 28 and Apr 28 in 2023, Mar 29 and Apr 29 in 2024. -/
theorem monthly_jan31_clamped_sequence :
    ((generateTransactionsForRecurring 6 c5NonLeap ⟨[], []⟩).map
        fun p => p.1.transactions.map Row.date) =
      some [⟨2023, 1, 31⟩, ⟨2023, 2, 28⟩, ⟨2023, 3, 28⟩, ⟨2023, 4, 28⟩] ∧
      ((generateTransactionsForRecurring 6 c5Leap ⟨[], []⟩).map
        fun p => p.1.transactions.map Row.date) =
      some [⟨2024, 1, 31⟩, ⟨2024, 2, 29⟩, ⟨2024, 3, 29⟩, ⟨2024, 4, 29⟩] := by
  decide

/-! ### Unknown frequencies fall through to the monthly branch -/

theorem getNextDate_unknown {f : String} (h1 : f ≠ "daily")
    (h2 : f ≠ "weekly") (h3 : f ≠ "monthly") (h4 : f ≠ "yearly")
    (interval : Nat) (d : Date) :
    getNextDate f interval d = getNextDate "monthly" interval d := by
  unfold getNextDate
  rw [if_neg h1, if_neg h2, if_neg h3, if_neg h4]
  simp

theorem genLoop_unknown_freq {r : Recurring} (h1 : r.frequency ≠ "daily")
    (h2 : r.frequency ≠ "weekly") (h3 : r.frequency ≠ "monthly")
    (h4 : r.frequency ≠ "yearly") :
    ∀ (fuel : Nat) (cur last : Date) (s : Store),
      genLoop r fuel cur last s =
        genLoop { r with frequency := "monthly" } fuel cur last s := by
  intro fuel
  induction fuel with
  | zero => intro cur last s; simp [genLoop]
  | succ k ih =>
    intro cur last s
    simp only [genLoop]
    rw [getNextDate_unknown h1 h2 h3 h4]
    by_cases hb : endBreak r.end_date
        (getNextDate "monthly" r.interval cur) = true
    · rw [if_pos hb, if_pos hb]
    · rw [if_neg hb, if_neg hb, ih]
      rfl

/-- C8 (amended): the source performs no template validation at all; in
particular an unrecognised `frequency` string is silently routed to the
`default` branch of `getNextDate`, so the whole run of
`generateTransactionsForRecurring` behaves exactly as if the frequency were
"monthly" — it persists occurrences and reports no `InvalidTemplate` error. -/
theorem unknown_frequency_defaults_to_monthly {r : Recurring}
    (h1 : r.frequency ≠ "daily") (h2 : r.frequency ≠ "weekly")
    (h3 : r.frequency ≠ "monthly") (h4 : r.frequency ≠ "yearly")
    (fuel : Nat) (s : Store) :
    generateTransactionsForRecurring fuel r s =
      generateTransactionsForRecurring fuel
        { r with frequency := "monthly" } s := by
  simp only [generateTransactionsForRecurring]
  rw [genLoop_unknown_freq h1 h2 h3 h4]
  rfl

/-- Template carrying a frequency outside the four recognised values. -/
def c8Unknown : Recurring :=
  ⟨"rt8", "Quinzenal", 75, "expense", "cat8", "fortnightly", 1,
    ⟨2024, 1, 15⟩, some ⟨2024, 3, 20⟩, none, "u1", "acc1"⟩

/-- Store produced by materializing `c8Unknown`: monthly occurrences. -/
def c8After : Store :=
  ⟨[occRow c8Unknown ⟨2024, 1, 15⟩, occRow c8Unknown ⟨2024, 2, 15⟩,
    occRow c8Unknown ⟨2024, 3, 15⟩],
   [{ c8Unknown with last_generated_date := some ⟨2024, 3, 15⟩ }]⟩

/-- C8 (counterexample): a template whose frequency is the unrecognised
string "fortnightly" is not rejected: the run completes without any error,
persists occurrence rows, and produces exactly the output of a "monthly"
template — the unknown frequency is silently interpreted as the default. -/
theorem unknown_frequency_runs_as_monthly_and_persists :
    generateTransactionsForRecurring 6 c8Unknown ⟨[], [c8Unknown]⟩ =
        some (c8After, ⟨2024, 3, 15⟩) ∧
      c8After.transactions ≠ [] ∧
      generateTransactionsForRecurring 6 c8Unknown ⟨[], [c8Unknown]⟩ =
        generateTransactionsForRecurring 6
          { c8Unknown with frequency := "monthly" } ⟨[], [c8Unknown]⟩ := by
  decide

theorem unknown_frequency_defaults_to_monthly_witness :
    c8Unknown.frequency ≠ "daily" ∧
      generateTransactionsForRecurring 6 c8Unknown ⟨[], [c8Unknown]⟩ =
        generateTransactionsForRecurring 6
          { c8Unknown with frequency := "monthly" } ⟨[], [c8Unknown]⟩ :=
  ⟨by decide,
    unknown_frequency_defaults_to_monthly (by decide) (by decide) (by decide)
      (by decide) 6 ⟨[], [c8Unknown]⟩⟩

/-! ### Failure propagation -/

theorem watermarkOf_congr {s t : Store} (h : t.recurrings = s.recurrings)
    (rid : String) : watermarkOf t rid = watermarkOf s rid := by
  simp [watermarkOf, h]

theorem genLoopF_error_anatomy {failP : String → Date → Bool} {r : Recurring} :
    ∀ {fuel : Nat} {cur last : Date} {s se : Store},
      genLoopF failP r fuel cur last s = some (Except.error se) →
      se.recurrings = s.recurrings ∧
        ∃ L, se.transactions = s.transactions ++ L := by
  intro fuel
  induction fuel with
  | zero => intro cur last s se h; simp [genLoopF] at h
  | succ k ih =>
    intro cur last s se h
    simp only [genLoopF] at h
    cases hb : endBreak r.end_date (getNextDate r.frequency r.interval cur) with
    | true =>
      rw [hb] at h
      simp at h
    | false =>
      rw [hb] at h
      simp only [Bool.false_eq_true, if_false] at h
      cases he : singleOcc s r.id (getNextDate r.frequency r.interval cur) with
      | true =>
        rw [he] at h
        simp only [if_true] at h
        exact ih h
      | false =>
        rw [he] at h
        simp only [Bool.false_eq_true, if_false] at h
        cases hf : failP r.id (getNextDate r.frequency r.interval cur) with
        | true =>
          rw [hf] at h
          simp only [if_true, Option.some.injEq, Except.error.injEq] at h
          refine ⟨by rw [← h], ⟨[], by rw [← h]; simp⟩⟩
        | false =>
          rw [hf] at h
          simp only [Bool.false_eq_true, if_false] at h
          obtain ⟨h1, L, h2⟩ := ih h
          refine ⟨h1,
            ⟨occRow r (getNextDate r.frequency r.interval cur) :: L, ?_⟩⟩
          rw [h2]
          simp [insertTx]

/-- C6 (amended): `generateTransactionsForRecurring` is not atomic, but a
failed run never advances the watermark: when an occurrence insert throws,
the run ends with the `recurring_transactions` row — and hence
`last_generated_date` — untouched, while the occurrence rows inserted before
the failure remain persisted (appended to the store, no rollback). -/
theorem failed_run_keeps_partial_writes {failP : String → Date → Bool}
    {fuel : Nat} {r : Recurring} {s se : Store}
    (h : generateTransactionsForRecurringF failP fuel r s =
      some (Except.error se)) :
    watermarkOf se r.id = watermarkOf s r.id ∧
      se.recurrings = s.recurrings ∧
      ∃ L, se.transactions = s.transactions ++ L := by
  simp only [generateTransactionsForRecurringF] at h
  by_cases hx : singleOcc s r.id r.start_date = true
  · rw [if_pos hx] at h
    rcases hg : genLoopF failP r fuel r.start_date r.start_date s with _ | e
    · rw [hg] at h
      simp at h
    · rw [hg] at h
      cases e with
      | error se' =>
        simp only [Option.some.injEq, Except.error.injEq] at h
        obtain ⟨h1, L, h2⟩ := genLoopF_error_anatomy hg
        subst h
        exact ⟨watermarkOf_congr h1 r.id, h1, ⟨L, h2⟩⟩
      | ok p =>
        obtain ⟨s2, w2⟩ := p
        simp at h
  · rw [if_neg hx] at h
    by_cases hf : failP r.id r.start_date = true
    · rw [if_pos hf] at h
      simp only [Option.some.injEq, Except.error.injEq] at h
      subst h
      exact ⟨rfl, rfl, ⟨[], by simp⟩⟩
    · rw [if_neg hf] at h
      rcases hg : genLoopF failP r fuel r.start_date r.start_date
          (insertTx s (occRow r r.start_date)) with _ | e
      · rw [hg] at h
        simp at h
      · rw [hg] at h
        cases e with
        | error se' =>
          simp only [Option.some.injEq, Except.error.injEq] at h
          obtain ⟨h1, L, h2⟩ := genLoopF_error_anatomy hg
          subst h
          refine ⟨watermarkOf_congr h1 r.id, h1,
            ⟨occRow r r.start_date :: L, ?_⟩⟩
          rw [h2]
          simp [insertTx]
        | ok p =>
          obtain ⟨s2, w2⟩ := p
          simp at h

/-- Daily template for the partial-failure scenario. -/
def c6Template : Recurring :=
  ⟨"rt6", "Curso", 300, "expense", "cat6", "daily", 1,
    ⟨2024, 1, 1⟩, some ⟨2024, 1, 3⟩, none, "u1", "acc1"⟩

/-- Failure injection: the insert of the occurrence dated 2024-01-02 throws. -/
def c6FailP : String → Date → Bool := fun _ d => d == ⟨2024, 1, 2⟩

/-- Store at the moment the failing run throws: the occurrence at the start
date has already been inserted, the watermark has not been written. -/
def c6ErrStore : Store := ⟨[occRow c6Template ⟨2024, 1, 1⟩], [c6Template]⟩

/-- C6 (counterexample): when the insert of the second occurrence throws, the
run fails after having persisted the first occurrence: the store differs from
the initial one (a partial write is visible) while the watermark was never
advanced — the run neither fully succeeded nor fully failed with no writes. -/
theorem partial_failure_leaves_partial_writes :
    generateTransactionsForRecurringF c6FailP 5 c6Template ⟨[], [c6Template]⟩ =
        some (Except.error c6ErrStore) ∧
      c6ErrStore.transactions ≠ ([] : List Row) ∧
      watermarkOf c6ErrStore "rt6" =
        watermarkOf (⟨[], [c6Template]⟩ : Store) "rt6" ∧
      c6ErrStore ≠ (⟨[], [c6Template]⟩ : Store) :=
  ⟨rfl, by decide, rfl, by decide⟩

theorem failed_run_keeps_partial_writes_witness :
    generateTransactionsForRecurringF c6FailP 5 c6Template ⟨[], [c6Template]⟩ =
        some (Except.error c6ErrStore) ∧
      watermarkOf c6ErrStore "rt6" =
        watermarkOf (⟨[], [c6Template]⟩ : Store) "rt6" ∧
      c6ErrStore.recurrings = (⟨[], [c6Template]⟩ : Store).recurrings :=
  ⟨rfl,
    (@failed_run_keeps_partial_writes c6FailP 5 c6Template ⟨[], [c6Template]⟩
      c6ErrStore rfl).1,
    (@failed_run_keeps_partial_writes c6FailP 5 c6Template ⟨[], [c6Template]⟩
      c6ErrStore rfl).2.1⟩

/-- C7 (amended): `generateRecurringTransactions` offers no batch isolation:
as soon as the first fetched template's generation throws, the error
propagates out of the `for` loop, the remaining templates are not processed,
and the caller receives the error instead of any per-template aggregate. -/
theorem batch_failure_skips_remaining {failP : String → Date → Bool}
    {fuel : Nat} {s : Store} {r : Recurring} {rest : List Recurring}
    {se : Store}
    (hfilter : s.recurrings.filter (fun x => x.end_date.isNone) = r :: rest)
    (hfail : generateTransactionsForRecurringF failP fuel r s =
      some (Except.error se)) :
    generateRecurringTransactionsF failP fuel s = some (Except.error se) := by
  unfold generateRecurringTransactionsF
  rw [hfilter]
  simp only [genAllLoopF]
  rw [hfail]

/-- First active template of the batch; its generation will fail. -/
def c7T1 : Recurring :=
  ⟨"r71", "Plano A", 10, "expense", "cat7", "daily", 1,
    ⟨2024, 1, 1⟩, none, none, "u1", "acc1"⟩

/-- Second active template of the batch; never reached. -/
def c7T2 : Recurring :=
  ⟨"r72", "Plano B", 20, "expense", "cat7", "daily", 1,
    ⟨2024, 1, 1⟩, none, none, "u1", "acc1"⟩

/-- Store holding the two active templates and no occurrences. -/
def c7Store : Store := ⟨[], [c7T1, c7T2]⟩

/-- Failure injection: every insert for template "r71" throws. -/
def c7FailP : String → Date → Bool := fun rid _ => rid == "r71"

/-- C7 (counterexample): with two active templates, a failure while
materializing the first aborts the whole batch: the run returns the error,
and the second template ends up with no occurrence and no watermark —
contradicting the claim that the remaining templates are still materialized
and an aggregate result is returned. -/
theorem batch_aborts_on_first_failure :
    generateRecurringTransactionsF c7FailP 5 c7Store =
        some (Except.error c7Store) ∧
      existsOcc c7Store "r72" ⟨2024, 1, 1⟩ = false ∧
      watermarkOf c7Store "r72" = none :=
  ⟨rfl, rfl, rfl⟩

theorem batch_failure_skips_remaining_witness :
    generateRecurringTransactionsF c7FailP 5 c7Store =
      some (Except.error c7Store) :=
  @batch_failure_skips_remaining c7FailP 5 c7Store c7T1 [c7T2] c7Store
    (by decide) rfl

/-! ### Preservation of the per-date uniqueness invariant -/

theorem newRecurringRow_id (a b c e : String) (inp : CreateInput) :
    (newRecurringRow a b c e inp).id = a := rfl

theorem countOcc_set_recurrings (s : Store) (R : List Recurring)
    (rid : String) (d : Date) :
    countOcc { s with recurrings := R } rid d = countOcc s rid d := rfl

theorem generate_unique {fuel : Nat} {r : Recurring} {s s' : Store} {w : Date}
    (hu : UniqueOcc s)
    (h : generateTransactionsForRecurring fuel r s = some (s', w)) :
    UniqueOcc s' := by
  obtain ⟨s2, hg, hupd⟩ := generate_run_anatomy h
  have hu1 : UniqueOcc (if singleOcc s r.id r.start_date = true then s
      else insertTx s (occRow r r.start_date)) := uniqueOcc_after_start hu
  have hu2 := genLoop_unique hu1 hg
  intro rid d
  rw [hupd, countOcc_updateWatermark]
  exact hu2 rid d

theorem genAllLoop_unique {fuel : Nat} :
    ∀ {l : List Recurring} {s s' : Store},
      UniqueOcc s → genAllLoop fuel l s = some s' → UniqueOcc s' := by
  intro l
  induction l with
  | nil =>
    intro s s' hu h
    simp only [genAllLoop, Option.some.injEq] at h
    rw [← h]
    exact hu
  | cons r rest ih =>
    intro s s' hu h
    simp only [genAllLoop] at h
    rcases hgen : generateTransactionsForRecurring fuel r s with _ | ⟨s1, w1⟩
    · rw [hgen] at h
      simp at h
    · rw [hgen] at h
      exact ih (generate_unique hu hgen) h

theorem generateRecurringTransactions_unique {fuel : Nat} {s s' : Store}
    (hu : UniqueOcc s) (h : generateRecurringTransactions fuel s = some s') :
    UniqueOcc s' :=
  genAllLoop_unique hu h

theorem createLoop_unique {r : Recurring} (hint : 1 ≤ r.interval) :
    ∀ {fuel : Nat} {cur last : Date} {s s2 : Store} {w : Date},
      UniqueOcc s →
      (∀ row ∈ s.transactions, row.recurring_transaction_id = some r.id →
        isBefore cur row.date = false) →
      createLoop r fuel cur last s = some (s2, w) → UniqueOcc s2 := by
  intro fuel
  induction fuel with
  | zero => intro cur last s s2 w _ _ h; simp [createLoop] at h
  | succ k ih =>
    intro cur last s s2 w hu hbnd h
    simp only [createLoop] at h
    cases hb : endBreak r.end_date (getNextDate r.frequency r.interval cur) with
    | true =>
      rw [hb] at h
      simp at h
      rw [← h.1]
      exact hu
    | false =>
      rw [hb] at h
      simp only [Bool.false_eq_true, if_false] at h
      have hlt : isBefore cur (getNextDate r.frequency r.interval cur) = true :=
        isBefore_getNextDate hint r.frequency cur
      have hzero : countOcc s r.id (getNextDate r.frequency r.interval cur) = 0 := by
        apply countOcc_eq_zero_of_existsOcc_false
        simp only [existsOcc, List.any_eq_false, decide_eq_true_eq, not_and]
        intro t ht hrid hdate
        have hthis := hbnd t ht hrid
        rw [hdate] at hthis
        rw [hthis] at hlt
        simp at hlt
      have hu' : UniqueOcc
          (insertTx s (occRow r (getNextDate r.frequency r.interval cur))) := by
        intro rid d
        rw [countOcc_insertTx]
        split_ifs with hc
        · obtain ⟨hc1, hc2⟩ := hc
          rw [occRow_rid, Option.some.injEq] at hc1
          rw [occRow_date] at hc2
          subst hc1
          subst hc2
          omega
        · have := hu rid d
          omega
      have hbnd' : ∀ row ∈
          (insertTx s (occRow r (getNextDate r.frequency r.interval cur))).transactions,
          row.recurring_transaction_id = some r.id →
          isBefore (getNextDate r.frequency r.interval cur) row.date = false := by
        intro row hrow hrid
        simp only [insertTx, List.mem_append, List.mem_singleton] at hrow
        rcases hrow with hrow | hrow
        · exact (ne_and_not_before_of_chain (hbnd row hrow hrid) hlt).2
        · subst hrow
          rw [occRow_date]
          exact isBefore_irrefl (getNextDate r.frequency r.interval cur)
      exact ih hu' hbnd' h

theorem createV1_anatomy {fuel : Nat} {freshRid uid aid catId : String}
    {inp : CreateInput} {s s' : Store} {w : Date}
    (h : createRecurringTransaction_v1 fuel freshRid uid aid catId inp s =
      some (s', w)) :
    ∃ s2, createLoop (newRecurringRow freshRid uid aid catId inp) fuel
        inp.txDate inp.txDate
        (insertTx { s with recurrings :=
            s.recurrings ++ [newRecurringRow freshRid uid aid catId inp] }
          (occRow (newRecurringRow freshRid uid aid catId inp) inp.txDate)) =
        some (s2, w) ∧
      s' = updateWatermark s2 freshRid w := by
  simp only [createRecurringTransaction_v1] at h
  rcases hg : createLoop (newRecurringRow freshRid uid aid catId inp) fuel
      inp.txDate inp.txDate
      (insertTx { s with recurrings :=
          s.recurrings ++ [newRecurringRow freshRid uid aid catId inp] }
        (occRow (newRecurringRow freshRid uid aid catId inp) inp.txDate))
      with _ | ⟨s2, w2⟩
  · rw [hg] at h
    simp at h
  · rw [hg] at h
    simp only [Option.some.injEq, Prod.mk.injEq] at h
    obtain ⟨h1, h2⟩ := h
    subst h2
    exact ⟨s2, rfl, h1.symm⟩

theorem createV2_anatomy {fuel : Nat} {freshRid uid aid catId : String}
    {inp : CreateInput} {s s' : Store} {w : Date}
    (h : createRecurringTransaction_v2 fuel freshRid uid aid catId inp s =
      some (s', w)) :
    ∃ s2, createLoop (newRecurringRow freshRid uid aid catId inp) fuel
        inp.txDate inp.txDate
        { s with recurrings :=
            s.recurrings ++ [newRecurringRow freshRid uid aid catId inp] } =
        some (s2, w) ∧
      s' = updateWatermark s2 freshRid w := by
  simp only [createRecurringTransaction_v2] at h
  rcases hg : createLoop (newRecurringRow freshRid uid aid catId inp) fuel
      inp.txDate inp.txDate
      { s with recurrings :=
          s.recurrings ++ [newRecurringRow freshRid uid aid catId inp] }
      with _ | ⟨s2, w2⟩
  · rw [hg] at h
    simp at h
  · rw [hg] at h
    simp only [Option.some.injEq, Prod.mk.injEq] at h
    obtain ⟨h1, h2⟩ := h
    subst h2
    exact ⟨s2, rfl, h1.symm⟩

theorem no_freshRid_row {s : Store} {freshRid : String}
    (hfresh : ∀ d, countOcc s freshRid d = 0) :
    ∀ row ∈ s.transactions,
      row.recurring_transaction_id = some freshRid → False := by
  intro row hrow hrid
  have := countOcc_pos_of_mem hrow hrid rfl
  have h0 := hfresh row.date
  omega

theorem createV1_unique {fuel : Nat} {freshRid uid aid catId : String}
    {inp : CreateInput} {s s' : Store} {w : Date}
    (hu : UniqueOcc s) (hint : 1 ≤ inp.interval)
    (hfresh : ∀ d, countOcc s freshRid d = 0)
    (h : createRecurringTransaction_v1 fuel freshRid uid aid catId inp s =
      some (s', w)) :
    UniqueOcc s' := by
  obtain ⟨s2, hg, hupd⟩ := createV1_anatomy h
  have hu1 : UniqueOcc
      (insertTx { s with recurrings :=
          s.recurrings ++ [newRecurringRow freshRid uid aid catId inp] }
        (occRow (newRecurringRow freshRid uid aid catId inp) inp.txDate)) := by
    intro rid d
    rw [countOcc_insertTx]
    split_ifs with hc
    · obtain ⟨hc1, hc2⟩ := hc
      rw [occRow_rid, newRecurringRow_id, Option.some.injEq] at hc1
      rw [occRow_date] at hc2
      subst hc1
      subst hc2
      have h0 := hfresh inp.txDate
      rw [countOcc_set_recurrings]
      omega
    · have := hu rid d
      rw [countOcc_set_recurrings]
      omega
  have hbnd1 : ∀ row ∈
      (insertTx { s with recurrings :=
          s.recurrings ++ [newRecurringRow freshRid uid aid catId inp] }
        (occRow (newRecurringRow freshRid uid aid catId inp) inp.txDate)).transactions,
      row.recurring_transaction_id =
          some (newRecurringRow freshRid uid aid catId inp).id →
      isBefore inp.txDate row.date = false := by
    intro row hrow hrid
    rw [newRecurringRow_id] at hrid
    simp only [insertTx, List.mem_append, List.mem_singleton] at hrow
    rcases hrow with hrow | hrow
    · exact absurd hrid (by
        intro hx
        exact no_freshRid_row hfresh row hrow hx)
    · subst hrow
      rw [occRow_date]
      exact isBefore_irrefl inp.txDate
  have hu2 := createLoop_unique hint hu1 hbnd1 hg
  intro rid d
  rw [hupd, countOcc_updateWatermark]
  exact hu2 rid d

theorem createV2_unique {fuel : Nat} {freshRid uid aid catId : String}
    {inp : CreateInput} {s s' : Store} {w : Date}
    (hu : UniqueOcc s) (hint : 1 ≤ inp.interval)
    (hfresh : ∀ d, countOcc s freshRid d = 0)
    (h : createRecurringTransaction_v2 fuel freshRid uid aid catId inp s =
      some (s', w)) :
    UniqueOcc s' := by
  obtain ⟨s2, hg, hupd⟩ := createV2_anatomy h
  have hu0 : UniqueOcc ({ s with recurrings :=
      s.recurrings ++ [newRecurringRow freshRid uid aid catId inp] }) :=
    fun rid d => hu rid d
  have hbnd0 : ∀ row ∈
      ({ s with recurrings :=
          s.recurrings ++ [newRecurringRow freshRid uid aid catId inp] } :
        Store).transactions,
      row.recurring_transaction_id =
          some (newRecurringRow freshRid uid aid catId inp).id →
      isBefore inp.txDate row.date = false := by
    intro row hrow hrid
    rw [newRecurringRow_id] at hrid
    exact absurd hrid (by
      intro hx
      exact no_freshRid_row hfresh row hrow hx)
  have hu2 := createLoop_unique hint hu0 hbnd0 hg
  intro rid d
  rw [hupd, countOcc_updateWatermark]
  exact hu2 rid d

/-- C9 (amended): under sequential execution the four operations preserve the
per-date uniqueness invariant — `generateTransactionsForRecurring` and
`generateRecurringTransactions` by their check-then-insert lookups, and both
`createRecurringTransaction` revisions because they write under a freshly
generated template id with strictly increasing dates (interval ≥ 1).  The
store itself enforces nothing: a duplicate insert succeeds (see the
counterexample), so uniqueness rests entirely on these application-level
behaviours. -/
theorem operations_preserve_occurrence_uniqueness :
    (∀ (fuel : Nat) (r : Recurring) (s s' : Store) (w : Date),
      UniqueOcc s →
      generateTransactionsForRecurring fuel r s = some (s', w) →
      UniqueOcc s') ∧
    (∀ (fuel : Nat) (s s' : Store),
      UniqueOcc s → generateRecurringTransactions fuel s = some s' →
      UniqueOcc s') ∧
    (∀ (fuel : Nat) (freshRid uid aid catId : String) (inp : CreateInput)
        (s s' : Store) (w : Date),
      UniqueOcc s → 1 ≤ inp.interval →
      (∀ d, countOcc s freshRid d = 0) →
      createRecurringTransaction_v1 fuel freshRid uid aid catId inp s =
        some (s', w) →
      UniqueOcc s') ∧
    (∀ (fuel : Nat) (freshRid uid aid catId : String) (inp : CreateInput)
        (s s' : Store) (w : Date),
      UniqueOcc s → 1 ≤ inp.interval →
      (∀ d, countOcc s freshRid d = 0) →
      createRecurringTransaction_v2 fuel freshRid uid aid catId inp s =
        some (s', w) →
      UniqueOcc s') :=
  ⟨fun _ _ _ _ _ hu h => generate_unique hu h,
   fun _ _ _ hu h => generateRecurringTransactions_unique hu h,
   fun _ _ _ _ _ _ _ _ _ hu hint hfresh h => createV1_unique hu hint hfresh h,
   fun _ _ _ _ _ _ _ _ _ hu hint hfresh h => createV2_unique hu hint hfresh h⟩

/-- Daily template for the duplicate-insert scenario. -/
def c9Template : Recurring :=
  ⟨"rt9", "Luz", 150, "expense", "cat9", "daily", 1,
    ⟨2024, 1, 1⟩, some ⟨2024, 1, 2⟩, none, "u1", "acc1"⟩

/-- The occurrence row of `c9Template` at its start date. -/
def c9Row : Row := occRow c9Template ⟨2024, 1, 1⟩

/-- Store that already holds `c9Row`. -/
def c9Dup : Store := ⟨[c9Row], [c9Template]⟩

/-- C9 (counterexample): the `transactions` table carries no uniqueness
constraint on `(recurring_transaction_id, date)`, so inserting a row for an
already-present pair does not fail — it succeeds and leaves two rows for the
same template and date, contradicting the claim that a duplicate insert fails
rather than creating a second record. -/
theorem duplicate_insert_creates_second_row :
    countOcc c9Dup "rt9" ⟨2024, 1, 1⟩ = 1 ∧
      countOcc (insertTx c9Dup c9Row) "rt9" ⟨2024, 1, 1⟩ = 2 := by decide

/-- Store produced by materializing `c9Template` from an occurrence-free
store. -/
def c9After : Store :=
  ⟨[occRow c9Template ⟨2024, 1, 1⟩, occRow c9Template ⟨2024, 1, 2⟩],
   [{ c9Template with last_generated_date := some ⟨2024, 1, 2⟩ }]⟩

theorem operations_preserve_occurrence_uniqueness_witness :
    generateTransactionsForRecurring 5 c9Template ⟨[], [c9Template]⟩ =
        some (c9After, ⟨2024, 1, 2⟩) ∧
      UniqueOcc c9After :=
  ⟨by decide,
    operations_preserve_occurrence_uniqueness.1 5 c9Template
      ⟨[], [c9Template]⟩ c9After ⟨2024, 1, 2⟩
      (fun rid d => by simp [countOcc]) (by decide)⟩

/-! ### The two createRecurringTransaction revisions -/

theorem createLoop_shift {r : Recurring} :
    ∀ {fuel : Nat} {cur last : Date} {s s2 : Store} {w : Date},
      createLoop r fuel cur last s = some (s2, w) →
      ∃ L, s2 = { s with transactions := s.transactions ++ L } ∧
        ∀ t : Store, createLoop r fuel cur last t =
          some ({ t with transactions := t.transactions ++ L }, w) := by
  intro fuel
  induction fuel with
  | zero => intro cur last s s2 w h; simp [createLoop] at h
  | succ k ih =>
    intro cur last s s2 w h
    simp only [createLoop] at h
    cases hb : endBreak r.end_date (getNextDate r.frequency r.interval cur) with
    | true =>
      rw [hb] at h
      simp at h
      obtain ⟨h1, h2⟩ := h
      refine ⟨[], ?_, ?_⟩
      · rw [← h1]
        simp
      · intro t
        simp only [createLoop]
        rw [if_pos hb, ← h2]
        simp
    | false =>
      rw [hb] at h
      simp only [Bool.false_eq_true, if_false] at h
      obtain ⟨L', hL1, hL2⟩ := ih h
      refine ⟨occRow r (getNextDate r.frequency r.interval cur) :: L', ?_, ?_⟩
      · rw [hL1]
        simp [insertTx]
      · intro t
        simp only [createLoop]
        rw [if_neg (by simp [hb]), hL2 (insertTx t
          (occRow r (getNextDate r.frequency r.interval cur)))]
        simp [insertTx]

/-- C10 (amended): given identical inputs and initial store, whenever the
first revision of `createRecurringTransaction` completes, the second
completes too with the same watermark and the same inserted occurrences
except one: the first revision additionally persists the occurrence at
`start_date`, which the second never creates.  Both leave identical
`recurring_transactions` state. -/
theorem create_versions_agree_except_start_row {fuel : Nat}
    {freshRid uid aid catId : String} {inp : CreateInput} {s s₁ : Store}
    {w : Date}
    (h : createRecurringTransaction_v1 fuel freshRid uid aid catId inp s =
      some (s₁, w)) :
    ∃ s₂ L,
      createRecurringTransaction_v2 fuel freshRid uid aid catId inp s =
        some (s₂, w) ∧
      s₁.transactions = s.transactions ++
        (occRow (newRecurringRow freshRid uid aid catId inp) inp.txDate :: L) ∧
      s₂.transactions = s.transactions ++ L ∧
      s₁.recurrings = s₂.recurrings := by
  obtain ⟨s2, hg, hupd⟩ := createV1_anatomy h
  obtain ⟨L, hL1, hL2⟩ := createLoop_shift hg
  have hv2loop := hL2 ({ s with recurrings :=
      s.recurrings ++ [newRecurringRow freshRid uid aid catId inp] })
  have hv2 : createRecurringTransaction_v2 fuel freshRid uid aid catId inp s =
      some (updateWatermark
        { s with
            recurrings :=
              s.recurrings ++ [newRecurringRow freshRid uid aid catId inp],
            transactions := s.transactions ++ L } freshRid w, w) := by
    simp only [createRecurringTransaction_v2]
    rw [hv2loop]
    rfl
  refine ⟨_, L, hv2, ?_, ?_, ?_⟩
  · rw [hupd, transactions_updateWatermark, hL1]
    simp [insertTx]
  · rfl
  · rw [hupd, hL1]
    rfl

/-- Inputs both revisions receive for the comparison scenario. -/
def c10Inp : CreateInput :=
  ⟨"Mensalidade", 80, "expense", ⟨2024, 1, 1⟩, "daily", 1, some ⟨2024, 1, 2⟩⟩

/-- C10 (counterexample): on identical inputs and an identical (empty) store,
the first revision persists the occurrence dates 2024-01-01 and 2024-01-02
while the second persists only 2024-01-02 — the two revisions do not create
the same set of occurrence dates: the first creates the `start_date`
occurrence and the second does not (they do agree on the watermark). -/
theorem create_versions_differ_at_start_date :
    ((createRecurringTransaction_v1 5 "rtA" "u1" "acc1" "catA" c10Inp
          ⟨[], []⟩).map fun p => p.1.transactions.map Row.date) =
        some [⟨2024, 1, 1⟩, ⟨2024, 1, 2⟩] ∧
      ((createRecurringTransaction_v2 5 "rtA" "u1" "acc1" "catA" c10Inp
          ⟨[], []⟩).map fun p => p.1.transactions.map Row.date) =
        some [⟨2024, 1, 2⟩] ∧
      ((createRecurringTransaction_v1 5 "rtA" "u1" "acc1" "catA" c10Inp
          ⟨[], []⟩).map fun p => p.2) = some ⟨2024, 1, 2⟩ ∧
      ((createRecurringTransaction_v2 5 "rtA" "u1" "acc1" "catA" c10Inp
          ⟨[], []⟩).map fun p => p.2) = some ⟨2024, 1, 2⟩ := by decide

/-- Store produced by the first revision in the comparison scenario. -/
def c10V1After : Store :=
  ⟨[occRow (newRecurringRow "rtA" "u1" "acc1" "catA" c10Inp) ⟨2024, 1, 1⟩,
    occRow (newRecurringRow "rtA" "u1" "acc1" "catA" c10Inp) ⟨2024, 1, 2⟩],
   [{ newRecurringRow "rtA" "u1" "acc1" "catA" c10Inp with
      last_generated_date := some ⟨2024, 1, 2⟩ }]⟩

theorem create_versions_agree_except_start_row_witness :
    createRecurringTransaction_v1 5 "rtA" "u1" "acc1" "catA" c10Inp ⟨[], []⟩ =
        some (c10V1After, ⟨2024, 1, 2⟩) ∧
      ∃ s₂ L,
        createRecurringTransaction_v2 5 "rtA" "u1" "acc1" "catA" c10Inp
            ⟨[], []⟩ = some (s₂, ⟨2024, 1, 2⟩) ∧
        c10V1After.transactions = ([] : List Row) ++
          (occRow (newRecurringRow "rtA" "u1" "acc1" "catA" c10Inp)
            c10Inp.txDate :: L) ∧
        s₂.transactions = ([] : List Row) ++ L ∧
        c10V1After.recurrings = s₂.recurrings :=
  ⟨by decide,
    @create_versions_agree_except_start_row 5 "rtA" "u1" "acc1" "catA" c10Inp
      ⟨[], []⟩ c10V1After ⟨2024, 1, 2⟩ (by decide)⟩

end FinApp
